import Mathlib

/-!
Verification of the Arrow C Data Interface FFI module (`src/arrow/src/ffi.rs`).

Shallow embedding conventions:
* Machine integers (`usize`, `i64`) are modelled as `Nat`; every value the core
  produces in these fields is a non-negative count, and the source's casts
  (`as i64` / `as usize`) are the identity in range.
* A raw pointer is modelled as `Option` of the pointed-to value: `none` is the
  null pointer.  A pointer to a byte buffer is modelled as the list of bytes of
  the pointed-to allocation (`Buffer := List Nat`, each entry one byte).
* Rust `Result<T, ArrowError>` is `Except ArrowError T`; functions that can
  additionally panic (via `assert!`, `unwrap`, `expect`) return `FfiResult`,
  which distinguishes a returned error from a panic.  Dereferencing memory the
  source would touch out of bounds (undefined behaviour) is modelled as a
  panic whose message starts with "UB".
* The always-null pointer fields `metadata` and `dictionary`, and the opaque
  `private_data` pointer, are omitted from the descriptor records: the data
  `private_data` owns (children, strings, retained buffers) is inlined as the
  corresponding `Option`/`List` fields.
* `CString::from_raw`/`Box::from_raw` deallocation in the release callbacks has
  no observable effect on the modelled state beyond `release := none`.
* The `format!` messages of `ArrowError::CDataInterface` are modelled by the
  structured type `CDIMsg`, one constructor per `format!` call site, carrying
  the same arguments.
-/

namespace ArrowFfi

/-- TimeUnit from the datatypes module: the four Arrow time granularities. -/
inductive TimeUnit where
  | second
  | millisecond
  | microsecond
  | nanosecond
deriving DecidableEq, Repr

mutual

/-- DataType: the logical-type enum, restricted to the variants this FFI
module mentions, plus `timestamp` as a representative of the variants the
module leaves to its catch-all "not supported" arms. -/
inductive DataType where
  | null
  | boolean
  | int8
  | int16
  | int32
  | int64
  | uint8
  | uint16
  | uint32
  | uint64
  | float16
  | float32
  | float64
  | binary
  | largeBinary
  | utf8
  | largeUtf8
  | date32
  | date64
  | time32 (unit : TimeUnit)
  | time64 (unit : TimeUnit)
  | list (field : Field)
  | largeList (field : Field)
  | struct (fields : List Field)
  | timestamp (unit : TimeUnit)

/-- Field: a named, nullability-flagged data type. -/
inductive Field where
  | mk (name : String) (dataType : DataType) (nullable : Bool)

end

/-- name accessor of Field. -/
def Field.name : Field → String
  | .mk n _ _ => n

/-- data_type accessor of Field. -/
def Field.dataType : Field → DataType
  | .mk _ dt _ => dt

/-- is_nullable accessor of Field. -/
def Field.nullable : Field → Bool
  | .mk _ _ b => b

/-- A byte buffer: the bytes of one allocation, in order. -/
abbrev Buffer := List Nat

/-- ArrayData: the array-data container, as assumed by the spec (logical
length, offset, null count, optional null-bit buffer, data buffers, child
arrays, data type). -/
inductive ArrayData where
  | mk (dataType : DataType) (len : Nat) (nullCount : Nat)
      (nullBuffer : Option Buffer) (offset : Nat)
      (buffers : List Buffer) (childData : List ArrayData)

def ArrayData.dataType : ArrayData → DataType
  | .mk dt _ _ _ _ _ _ => dt

def ArrayData.len : ArrayData → Nat
  | .mk _ n _ _ _ _ _ => n

def ArrayData.nullCount : ArrayData → Nat
  | .mk _ _ nc _ _ _ _ => nc

def ArrayData.nullBuffer : ArrayData → Option Buffer
  | .mk _ _ _ nbb _ _ _ => nbb

def ArrayData.offset : ArrayData → Nat
  | .mk _ _ _ _ off _ _ => off

def ArrayData.buffers : ArrayData → List Buffer
  | .mk _ _ _ _ _ bufs _ => bufs

def ArrayData.childData : ArrayData → List ArrayData
  | .mk _ _ _ _ _ _ cd => cd

/-- bit_util::ceil: ceiling division used for bit-sized buffer lengths. -/
def ceilDiv (value divisor : Nat) : Nat :=
  if value % divisor > 0 then value / divisor + 1 else value / divisor

/-- Bit i of a bit-packed buffer (LSB-first within each byte); out-of-range
bytes read as 0. -/
def getBit (buf : Buffer) (i : Nat) : Nat :=
  (buf.getD (i / 8) 0) / 2 ^ (i % 8) % 2

/-- count of logical nulls in window `[offset, offset+len)` of a null-bit
buffer (`count_nulls` helper used by `ArrayData::new` when the caller passes
no null count; kept for fidelity, unreached in this module). -/
def countNulls (nullBuffer : Option Buffer) (offset len : Nat) : Nat :=
  match nullBuffer with
  | none => 0
  | some buf => len - ((List.range len).filter (fun i => getBit buf (offset + i) == 1)).length

/-- ArrayData::new: stores the fields; when `nullCount` is `none` it is
computed from the null-bit buffer. -/
def ArrayData.new (dataType : DataType) (len : Nat) (nullCount : Option Nat)
    (nullBuffer : Option Buffer) (offset : Nat) (buffers : List Buffer)
    (childData : List ArrayData) : ArrayData :=
  let nc := match nullCount with
    | some n => n
    | none => countNulls nullBuffer offset len
  .mk dataType len nc nullBuffer offset buffers childData

/-- One structured value per `format!` call site that builds a
`CDataInterface` message in the source, carrying that site's arguments. -/
inductive CDIMsg where
  /-- "The datatype {:?} is still not supported in Rust implementation" with a
  DataType argument (used by `to_format` and `bit_width`). -/
  | unsupportedDataType (dataType : DataType)
  /-- Same message with the unrecognised format string (used by `to_field`). -/
  | unsupportedFormat (format : String)
  /-- "The datatype {:?} expects n buffers, but requested i ..." -/
  | expectsBuffers (dataType : DataType) (expected : Nat) (requested : Nat)
  /-- "The external buffer at position {} is null." -/
  | nullBufferAt (position : Nat)

/-- the error enum, restricted to the variants this module constructs. -/
inductive ArrowError where
  | cDataInterface (msg : CDIMsg)
  | memoryError (msg : String)

/-- Outcome of an operation that can return a value, return an error, or
panic (assert / unwrap / modelled undefined behaviour). -/
inductive FfiResult (α : Type) where
  | ok (val : α)
  | err (e : ArrowError)
  | panic (msg : String)

/-- map over the ok value, propagating errors and panics. -/
def FfiResult.map {α β : Type} (f : α → β) : FfiResult α → FfiResult β
  | .ok a => .ok (f a)
  | .err e => .err e
  | .panic m => .panic m

/-- lift a `Result` into an `FfiResult` (the `?` operator). -/
def FfiResult.ofExcept {α : Type} : Except ArrowError α → FfiResult α
  | .ok a => .ok a
  | .error e => .err e

/-- to_format: DataType → CDI format grapheme. -/
def toFormat (dataType : DataType) : Except ArrowError String :=
  match dataType with
  | .null => .ok "n"
  | .boolean => .ok "b"
  | .int8 => .ok "c"
  | .uint8 => .ok "C"
  | .int16 => .ok "s"
  | .uint16 => .ok "S"
  | .int32 => .ok "i"
  | .uint32 => .ok "I"
  | .int64 => .ok "l"
  | .uint64 => .ok "L"
  | .float16 => .ok "e"
  | .float32 => .ok "f"
  | .float64 => .ok "g"
  | .binary => .ok "z"
  | .largeBinary => .ok "Z"
  | .utf8 => .ok "u"
  | .largeUtf8 => .ok "U"
  | .date32 => .ok "tdD"
  | .date64 => .ok "tdm"
  | .time32 .second => .ok "tts"
  | .time32 .millisecond => .ok "ttm"
  | .time64 .microsecond => .ok "ttu"
  | .time64 .nanosecond => .ok "ttn"
  | .list _ => .ok "+l"
  | .largeList _ => .ok "+L"
  | .struct _ => .ok "+s"
  | z => .error (.cDataInterface (.unsupportedDataType z))

/-- bit_width: per-element bit width of CDI buffer `i` for a data type. -/
def bitWidth (dataType : DataType) (i : Nat) : Except ArrowError Nat :=
  match dataType, i with
  | _, 0 => .ok 1
  | .boolean, 1 => .ok 1
  | .uint8, 1 => .ok 8
  | .uint16, 1 => .ok 16
  | .uint32, 1 => .ok 32
  | .uint64, 1 => .ok 64
  | .int8, 1 => .ok 8
  | .int16, 1 => .ok 16
  | .int32, 1 | .date32, 1 | .time32 _, 1 => .ok 32
  | .int64, 1 | .date64, 1 | .time64 _, 1 => .ok 64
  | .float32, 1 => .ok 32
  | .float64, 1 => .ok 64
  | .boolean, _ | .uint8, _ | .uint16, _ | .uint32, _ | .uint64, _
  | .int8, _ | .int16, _
  | .int32, _ | .date32, _ | .time32 _, _
  | .int64, _ | .date64, _ | .time64 _, _
  | .float32, _ | .float64, _ =>
      .error (.cDataInterface (.expectsBuffers dataType 2 i))
  | .utf8, 1 | .binary, 1 | .list _, 1 => .ok 32
  | .utf8, 2 | .binary, 2 | .list _, 2 => .ok 8
  | .utf8, _ | .binary, _ | .list _, _ =>
      .error (.cDataInterface (.expectsBuffers dataType 3 i))
  | .largeUtf8, 1 | .largeBinary, 1 | .largeList _, 1 => .ok 64
  | .largeUtf8, 2 | .largeBinary, 2 | .largeList _, 2 => .ok 8
  | .largeUtf8, _ | .largeBinary, _ | .largeList _, _ =>
      .error (.cDataInterface (.expectsBuffers dataType 3 i))
  | _, _ => .error (.cDataInterface (.unsupportedDataType dataType))

/-- true when the string has an interior NUL byte (`CString::new` fails). -/
def containsNul (s : String) : Bool :=
  s.data.any (fun c => c == Char.ofNat 0)

/-- panic message for `CString::new(..).unwrap()` on a string with a NUL. -/
def msgCStringNul : String := "CString::new unwrap on NulError"

/-- panic message for the non-null assertion on a schema format pointer. -/
def msgFormatNull : String := "assertion failed: !self.format.is_null()"

/-- panic message for the non-null assertion on a schema name pointer. -/
def msgNameNull : String := "assertion failed: !self.name.is_null()"

/-- panic message for the index assertion in `FFI_ArrowSchema::child`. -/
def msgChildIndex : String := "assertion failed: index < self.n_children as usize"

/-- panic message for a schema child pointer read past the children vector. -/
def msgChildUB : String := "UB: schema child pointer read out of bounds"

/-- panic message for an array child pointer read past the children vector. -/
def msgArrChildUB : String := "UB: array child pointer read out of bounds"

/-- panic message for `.map(|d| d.unwrap())` on a child `to_data` error. -/
def msgUnwrapErr : String := "called Result::unwrap() on an Err value"

/-- panic message for the index assertion in `create_buffer`. -/
def msgBufferIndexAssert : String := "assertion failed: index < array.n_buffers as usize"

/-- panic message for a buffer pointer read past the buffers vector. -/
def msgBuffersUB : String := "UB: buffer pointer read out of bounds"

/-- panic message for viewing more bytes than the pointed-to allocation has. -/
def msgBufferRegionUB : String := "UB: buffer view exceeds allocation"

/-- panic message for dereferencing the offset-buffer pointer in `buffer_len`
when the buffers vector or its entry 1 is null. -/
def msgOffsetPtrUB : String := "UB: offset buffer pointer dereference"

/-- panic message for reading the last offset past the offset allocation. -/
def msgOffsetReadUB : String := "UB: offset buffer read out of bounds"

/-- The release callback this core installs on schemas it exports
(`release_schema` is the only schema callback defined in the module). -/
inductive SchemaReleaseCallback where
  | release_schema
deriving DecidableEq

/-- The release callback this core installs on arrays it exports. -/
inductive ArrayReleaseCallback where
  | release_array
deriving DecidableEq

/-- FFI_ArrowSchema: the ABI schema record.  `format` and `name` are C-string
pointers (`none` = null), `children` is the child-pointer vector with its
pointed-to records inlined, `release` the release-callback pointer.  The
always-null `metadata` and `dictionary` fields and the opaque `private_data`
are omitted (see the module docstring). -/
inductive FFI_ArrowSchema where
  | mk (format : Option String) (name : Option String) (flags : Nat)
      (n_children : Nat) (children : List FFI_ArrowSchema)
      (release : Option SchemaReleaseCallback)

def FFI_ArrowSchema.format : FFI_ArrowSchema → Option String
  | .mk f _ _ _ _ _ => f

def FFI_ArrowSchema.name : FFI_ArrowSchema → Option String
  | .mk _ n _ _ _ _ => n

def FFI_ArrowSchema.flags : FFI_ArrowSchema → Nat
  | .mk _ _ fl _ _ _ => fl

def FFI_ArrowSchema.n_children : FFI_ArrowSchema → Nat
  | .mk _ _ _ n _ _ => n

def FFI_ArrowSchema.children : FFI_ArrowSchema → List FFI_ArrowSchema
  | .mk _ _ _ _ cs _ => cs

def FFI_ArrowSchema.release : FFI_ArrowSchema → Option SchemaReleaseCallback
  | .mk _ _ _ _ _ r => r

/-- nullable(): `(flags / 2) & 1 == 1`. -/
def FFI_ArrowSchema.nullable (s : FFI_ArrowSchema) : Bool :=
  (s.flags / 2) % 2 == 1

/-- FFI_ArrowSchema::empty. -/
def FFI_ArrowSchema.empty : FFI_ArrowSchema :=
  .mk none none 0 0 [] none

mutual

/-- the `children_vec` of FFI_ArrowSchema::try_new: one recursively built
child schema for List/LargeList, one per field for Struct, else none. -/
def tryNewChildren : DataType → FfiResult (List FFI_ArrowSchema)
  | .list f => (FFI_ArrowSchema.tryNew f).map (fun c => [c])
  | .largeList f => (FFI_ArrowSchema.tryNew f).map (fun c => [c])
  | .struct fields => FFI_ArrowSchema.tryNewList fields
  | _ => .ok []
termination_by structural dt => dt

/-- FFI_ArrowSchema::try_new: format string, recursively built children,
flags from nullability; the `CString::new(..).unwrap()` calls at the end
panic on interior NULs. -/
def FFI_ArrowSchema.tryNew : Field → FfiResult FFI_ArrowSchema
  | .mk name dataType nullable =>
    match FfiResult.ofExcept (toFormat dataType) with
    | .err e => .err e
    | .panic m => .panic m
    | .ok format =>
      match tryNewChildren dataType with
      | .err e => .err e
      | .panic m => .panic m
      | .ok children =>
        if containsNul format then .panic msgCStringNul
        else if containsNul name then .panic msgCStringNul
        else .ok (.mk (some format) (some name) ((if nullable then 1 else 0) * 2)
            children.length children (some .release_schema))
termination_by structural f => f

/-- children of a Struct field, built in order, first failure short-circuits
(`collect::<Result<Vec<_>>>`). -/
def FFI_ArrowSchema.tryNewList : List Field → FfiResult (List FFI_ArrowSchema)
  | [] => .ok []
  | f :: fs =>
    match FFI_ArrowSchema.tryNew f with
    | .err e => .err e
    | .panic m => .panic m
    | .ok c => (FFI_ArrowSchema.tryNewList fs).map (fun cs => c :: cs)
termination_by structural fs => fs

end

/-- release_schema: the exported-schema release callback; reclaims the owned
strings and children (no observable effect on the record) and clears the
release pointer. -/
def release_schema : FFI_ArrowSchema → FFI_ArrowSchema
  | .mk format name flags n_children children _ =>
    .mk format name flags n_children children none

/-- run a schema release-callback pointer. -/
def runSchemaRelease : SchemaReleaseCallback → FFI_ArrowSchema → FFI_ArrowSchema
  | .release_schema, s => release_schema s

/-- Drop for FFI_ArrowSchema: invoke the callback when `release` is non-null.
Returns the descriptor state after the drop and whether a callback ran. -/
def FFI_ArrowSchema.drop (s : FFI_ArrowSchema) : FFI_ArrowSchema × Bool :=
  match s.release with
  | none => (s, false)
  | some cb => (runSchemaRelease cb s, true)

/-- Field::new(name, data_type, nullable) at the end of `to_field`; the
`schema.name()` accessor asserts the name pointer non-null. -/
def finishField (name : Option String) (flags : Nat) (dataType : DataType) :
    FfiResult Field :=
  match name with
  | none => .panic msgNameNull
  | some nm => .ok (.mk nm dataType ((flags / 2) % 2 == 1))

mutual

/-- to_field: decode a schema record back to a Field.  Child access models
`FFI_ArrowSchema::child`: assert `index < n_children`, assert the name
pointer non-null, then dereference the child pointer (out-of-vector reads
are undefined behaviour, modelled as a panic). -/
def toField : FFI_ArrowSchema → FfiResult Field
  | .mk format name flags n_children children _release =>
    match format with
    | none => .panic msgFormatNull
    | some fmt =>
      match fmt with
      | "n" => finishField name flags .null
      | "b" => finishField name flags .boolean
      | "c" => finishField name flags .int8
      | "C" => finishField name flags .uint8
      | "s" => finishField name flags .int16
      | "S" => finishField name flags .uint16
      | "i" => finishField name flags .int32
      | "I" => finishField name flags .uint32
      | "l" => finishField name flags .int64
      | "L" => finishField name flags .uint64
      | "e" => finishField name flags .float16
      | "f" => finishField name flags .float32
      | "g" => finishField name flags .float64
      | "z" => finishField name flags .binary
      | "Z" => finishField name flags .largeBinary
      | "u" => finishField name flags .utf8
      | "U" => finishField name flags .largeUtf8
      | "tdD" => finishField name flags .date32
      | "tdm" => finishField name flags .date64
      | "tts" => finishField name flags (.time32 .second)
      | "ttm" => finishField name flags (.time32 .millisecond)
      | "ttu" => finishField name flags (.time64 .microsecond)
      | "ttn" => finishField name flags (.time64 .nanosecond)
      | "+l" =>
        if 0 < n_children then
          match name with
          | none => .panic msgNameNull
          | some _ =>
            match children with
            | [] => .panic msgChildUB
            | c :: _ =>
              match toField c with
              | .err e => .err e
              | .panic m => .panic m
              | .ok f => finishField name flags (.list f)
        else .panic msgChildIndex
      | "+L" =>
        if 0 < n_children then
          match name with
          | none => .panic msgNameNull
          | some _ =>
            match children with
            | [] => .panic msgChildUB
            | c :: _ =>
              match toField c with
              | .err e => .err e
              | .panic m => .panic m
              | .ok f => finishField name flags (.largeList f)
        else .panic msgChildIndex
      | "+s" =>
        if 0 < n_children then
          match name with
          | none => .panic msgNameNull
          | some _ =>
            match toFieldList n_children children with
            | .err e => .err e
            | .panic m => .panic m
            | .ok fields => finishField name flags (.struct fields)
        else finishField name flags (.struct [])
      | other => .err (.cDataInterface (.unsupportedFormat other))
termination_by structural s => s

/-- the loop `(0..n_children).map(|x| to_field(schema.child(x)))` of the
`"+s"` arm: decodes the first `n_children` children in order, short-circuits
on the first error, and hits undefined behaviour (modelled panic) if
`n_children` exceeds the children vector. -/
def toFieldList : Nat → List FFI_ArrowSchema → FfiResult (List Field)
  | 0, _ => .ok []
  | Nat.succ _, [] => .panic msgChildUB
  | Nat.succ n, c :: cs =>
    match toField c with
    | .err e => .err e
    | .panic m => .panic m
    | .ok f => (toFieldList n cs).map (fun fs => f :: fs)
termination_by structural n l => l

end

/-- FFI_ArrowArray: the ABI array record.  `buffers` is the buffer-pointer
vector (`none` = the vector pointer itself is null; an entry `none` is a
null buffer pointer, `some bytes` models a pointer to that allocation). -/
inductive FFI_ArrowArray where
  | mk (length : Nat) (null_count : Nat) (offset : Nat)
      (n_buffers : Nat) (n_children : Nat)
      (buffers : Option (List (Option Buffer)))
      (children : List FFI_ArrowArray)
      (release : Option ArrayReleaseCallback)

def FFI_ArrowArray.length : FFI_ArrowArray → Nat
  | .mk l _ _ _ _ _ _ _ => l

def FFI_ArrowArray.null_count : FFI_ArrowArray → Nat
  | .mk _ nc _ _ _ _ _ _ => nc

def FFI_ArrowArray.offset : FFI_ArrowArray → Nat
  | .mk _ _ o _ _ _ _ _ => o

def FFI_ArrowArray.n_buffers : FFI_ArrowArray → Nat
  | .mk _ _ _ nb _ _ _ _ => nb

def FFI_ArrowArray.n_children : FFI_ArrowArray → Nat
  | .mk _ _ _ _ nc _ _ _ => nc

def FFI_ArrowArray.buffers : FFI_ArrowArray → Option (List (Option Buffer))
  | .mk _ _ _ _ _ bs _ _ => bs

def FFI_ArrowArray.children : FFI_ArrowArray → List FFI_ArrowArray
  | .mk _ _ _ _ _ _ cs _ => cs

def FFI_ArrowArray.release : FFI_ArrowArray → Option ArrayReleaseCallback
  | .mk _ _ _ _ _ _ _ r => r

/-- len(): the length of the array. -/
def FFI_ArrowArray.len (a : FFI_ArrowArray) : Nat := a.length

mutual

/-- FFI_ArrowArray::new: prepend the (possibly absent) null buffer to the
data buffers, record the counts, recursively export the children. -/
def FFI_ArrowArray.new : ArrayData → FFI_ArrowArray
  | .mk _dataType len nullCount nullBuffer offset buffers childData =>
    let bufs : List (Option Buffer) := nullBuffer :: buffers.map some
    let children := FFI_ArrowArray.newList childData
    .mk len nullCount offset bufs.length children.length (some bufs) children
      (some .release_array)
termination_by structural d => d

/-- the `data.child_data().iter().map(FFI_ArrowArray::new)` vector. -/
def FFI_ArrowArray.newList : List ArrayData → List FFI_ArrowArray
  | [] => []
  | d :: ds => FFI_ArrowArray.new d :: FFI_ArrowArray.newList ds
termination_by structural l => l

end

/-- FFI_ArrowArray::empty. -/
def FFI_ArrowArray.empty : FFI_ArrowArray :=
  .mk 0 0 0 0 0 none [] none

/-- release_array: the exported-array release callback; reclaims the private
block and children (no observable effect on the record) and clears the
release pointer. -/
def release_array : FFI_ArrowArray → FFI_ArrowArray
  | .mk length null_count offset n_buffers n_children buffers children _ =>
    .mk length null_count offset n_buffers n_children buffers children none

/-- run an array release-callback pointer. -/
def runArrayRelease : ArrayReleaseCallback → FFI_ArrowArray → FFI_ArrowArray
  | .release_array, a => release_array a

/-- Drop for FFI_ArrowArray: invoke the callback when `release` is non-null.
Returns the descriptor state after the drop and whether a callback ran. -/
def FFI_ArrowArray.drop (a : FFI_ArrowArray) : FFI_ArrowArray × Bool :=
  match a.release with
  | none => (a, false)
  | some cb => (runArrayRelease cb a, true)

/-- create_buffer: return absent when the buffers vector pointer is null;
otherwise assert the index in range, dereference the buffer pointer (null
gives absent) and view its first `len` bytes (viewing more bytes than the
allocation holds is undefined behaviour).  The `owner` Arc only controls
deallocation timing and has no effect on the returned bytes, so it is not
represented. -/
def createBuffer (array : FFI_ArrowArray) (index : Nat) (len : Nat) :
    FfiResult (Option Buffer) :=
  match array.buffers with
  | none => .ok none
  | some bs =>
    if index < array.n_buffers then
      match bs[index]? with
      | none => .panic msgBuffersUB
      | some none => .ok none
      | some (some region) =>
        if len ≤ region.length then .ok (some (region.take len))
        else .panic msgBufferRegionUB
    else .panic msgBufferIndexAssert

/-- read `n` bytes little-endian starting at byte `pos` of a region. -/
def readLE (region : Buffer) (pos : Nat) : Nat → Nat
  | 0 => 0
  | Nat.succ n => region.getD pos 0 + 256 * readLE region (pos + 1) n

/-- reinterpret an i32 bit pattern (given as its unsigned value) as usize:
`v as usize` sign-extends. -/
def usizeOfI32 (u : Nat) : Nat :=
  if u < 2 ^ 31 then u else 2 ^ 64 - 2 ^ 32 + u

/-- reinterpret an i64 bit pattern (given as its unsigned value) as usize:
the bits are unchanged. -/
def usizeOfI64 (u : Nat) : Nat := u

/-- buffer_len specialised to index 1 (the target of the source's single
recursive call `self.buffer_len(1)?`): for variable-width types the offset
buffer holds `length + 1` offsets, otherwise the default fixed-width rule. -/
def bufferLen1 (array : FFI_ArrowArray) (schema : FFI_ArrowSchema) : FfiResult Nat :=
  match toField schema with
  | .err e => .err e
  | .panic m => .panic m
  | .ok field =>
    match field.dataType with
    | .utf8 | .largeUtf8 | .binary | .largeBinary | .list _ | .largeList _ =>
      match FfiResult.ofExcept (bitWidth field.dataType 1) with
      | .err e => .err e
      | .panic m => .panic m
      | .ok bits => .ok ((array.length + 1) * (bits / 8))
    | _ =>
      match FfiResult.ofExcept (bitWidth field.dataType 1) with
      | .err e => .err e
      | .panic m => .panic m
      | .ok bits => .ok (ceilDiv (array.length * bits) 8)

/-- buffer_len: byte length of CDI buffer `i`, derived from the declared
type, the logical length, and (for variable-width data buffers at `i = 2`)
the last element of the offset buffer, read through the raw pointer at
`buffers[1]` (a null or short read is undefined behaviour, modelled as a
panic).  The source's recursion bottoms out at index 1, embedded here as
`bufferLen1`. -/
def bufferLen (array : FFI_ArrowArray) (schema : FFI_ArrowSchema) (i : Nat) : FfiResult Nat :=
  match toField schema with
  | .err e => .err e
  | .panic m => .panic m
  | .ok field =>
    match field.dataType, i with
    | .utf8, 1 | .largeUtf8, 1 | .binary, 1 | .largeBinary, 1
    | .list _, 1 | .largeList _, 1 =>
      match FfiResult.ofExcept (bitWidth field.dataType i) with
      | .err e => .err e
      | .panic m => .panic m
      | .ok bits => .ok ((array.length + 1) * (bits / 8))
    | .utf8, 2 | .binary, 2 | .list _, 2 =>
      match bufferLen1 array schema with
      | .err e => .err e
      | .panic m => .panic m
      | .ok len =>
        match array.buffers with
        | none => .panic msgOffsetPtrUB
        | some bs =>
          match bs[1]? with
          | none => .panic msgOffsetPtrUB
          | some none => .panic msgOffsetPtrUB
          | some (some region) =>
            let pos := (len / 4 - 1) * 4
            if pos + 4 ≤ region.length then .ok (usizeOfI32 (readLE region pos 4))
            else .panic msgOffsetReadUB
    | .largeUtf8, 2 | .largeBinary, 2 | .largeList _, 2 =>
      match bufferLen1 array schema with
      | .err e => .err e
      | .panic m => .panic m
      | .ok len =>
        match array.buffers with
        | none => .panic msgOffsetPtrUB
        | some bs =>
          match bs[1]? with
          | none => .panic msgOffsetPtrUB
          | some none => .panic msgOffsetPtrUB
          | some (some region) =>
            let pos := (len / 8 - 1) * 8
            if pos + 8 ≤ region.length then .ok (usizeOfI64 (readLE region pos 8))
            else .panic msgOffsetReadUB
    | _, _ =>
      match FfiResult.ofExcept (bitWidth field.dataType i) with
      | .err e => .err e
      | .panic m => .panic m
      | .ok bits => .ok (ceilDiv (array.length * bits) 8)

/-- one step of the `buffers()` loop: buffer `index`, then `count - 1` more. -/
def collectBuffers (array : FFI_ArrowArray) (schema : FFI_ArrowSchema)
    (index : Nat) : Nat → FfiResult (List Buffer)
  | 0 => .ok []
  | Nat.succ count =>
    match bufferLen array schema index with
    | .err e => .err e
    | .panic m => .panic m
    | .ok len =>
      match createBuffer array index len with
      | .err e => .err e
      | .panic m => .panic m
      | .ok none => .err (.cDataInterface (.nullBufferAt (index - 1)))
      | .ok (some b) => (collectBuffers array schema (index + 1) count).map (fun rest => b :: rest)

/-- buffers(): the data buffers at CDI indices `1 .. n_buffers-1`, each a
null pointer being a returned error. -/
def buffersOf (array : FFI_ArrowArray) (schema : FFI_ArrowSchema) :
    FfiResult (List Buffer) :=
  collectBuffers array schema 1 (array.n_buffers - 1)

/-- null_bit_buffer(): buffer 0 with byte length `ceil(length, 8)`. -/
def nullBitBuffer (array : FFI_ArrowArray) : FfiResult (Option Buffer) :=
  createBuffer array 0 (ceilDiv array.length 8)

mutual

/-- to_data: reconstruct an ArrayData from an (array, schema) descriptor
pair: data type from the schema, counts from the array, data buffers via
`buffers()`, validity via `null_bit_buffer()`, children recursively (their
`to_data` result is `.unwrap()`ed, so a child error panics). -/
def toData : FFI_ArrowArray → FFI_ArrowSchema → FfiResult ArrayData
  | .mk length null_count offset n_buffers n_children bufs children release, schema =>
    let array : FFI_ArrowArray :=
      .mk length null_count offset n_buffers n_children bufs children release
    match toField schema with
    | .err e => .err e
    | .panic m => .panic m
    | .ok field =>
      match buffersOf array schema with
      | .err e => .err e
      | .panic m => .panic m
      | .ok buffers =>
        match nullBitBuffer array with
        | .err e => .err e
        | .panic m => .panic m
        | .ok null_bit_buffer =>
          match toDataChildren n_children children schema.children with
          | .err e => .err e
          | .panic m => .panic m
          | .ok child_data =>
            .ok (ArrayData.new field.dataType length (some null_count)
              null_bit_buffer offset buffers child_data)
termination_by structural a s => a

/-- the child loop of `to_data`: `(0..n_children).map(|i| self.child(i)
.to_data()).map(|d| d.unwrap())`.  `create_child` asserts the index in
range; reading a child pointer past either children vector is undefined
behaviour (modelled panic); a child error panics through `unwrap`. -/
def toDataChildren : Nat → List FFI_ArrowArray → List FFI_ArrowSchema →
    FfiResult (List ArrayData)
  | 0, _, _ => .ok []
  | Nat.succ _, [], _ => .panic msgArrChildUB
  | Nat.succ _, _ :: _, [] => .panic msgChildUB
  | Nat.succ n, a :: arest, s :: srest =>
    match toData a s with
    | .ok d => (toDataChildren n arest srest).map (fun ds => d :: ds)
    | .panic m => .panic m
    | .err _ => .panic msgUnwrapErr
termination_by structural n a s => a

end

/-- the bridge: a pair of shared handles to the two descriptor records. -/
structure ArrowArray where
  array : FFI_ArrowArray
  schema : FFI_ArrowSchema

/-- ArrowArray::try_new: export an ArrayData, building the schema from
`Field::new("", data.data_type(), data.null_count() != 0)`. -/
def ArrowArray.tryNew (data : ArrayData) : FfiResult ArrowArray :=
  let field : Field := .mk "" data.dataType (data.nullCount != 0)
  let array := FFI_ArrowArray.new data
  match FFI_ArrowSchema.tryNew field with
  | .err e => .err e
  | .panic m => .panic m
  | .ok schema => .ok ⟨array, schema⟩

/-- ArrowArray::try_from_raw: wrap two raw descriptor pointers; error when
either is null. -/
def ArrowArray.tryFromRaw (array : Option FFI_ArrowArray)
    (schema : Option FFI_ArrowSchema) : Except ArrowError ArrowArray :=
  match array, schema with
  | some a, some s => .ok ⟨a, s⟩
  | _, _ => .error (.memoryError "At least one of the pointers passed to `try_from_raw` is null")

/-- ArrowArray::empty: both descriptors in released form. -/
def ArrowArray.emptyBridge : ArrowArray :=
  ⟨FFI_ArrowArray.empty, FFI_ArrowSchema.empty⟩

/-- export then import: `to_data` on the bridge built by `try_new`. -/
def exportImportRoundTrip (d : ArrayData) : FfiResult ArrayData :=
  match ArrowArray.tryNew d with
  | .err e => .err e
  | .panic m => .panic m
  | .ok bridge => toData bridge.array bridge.schema

/-- sequence two fallible steps (used only to state round-trip laws). -/
def FfiResult.bind {α β : Type} : FfiResult α → (α → FfiResult β) → FfiResult β
  | .ok a, g => g a
  | .err e, _ => .err e
  | .panic m, _ => .panic m

mutual

/-- a data type lies in the supported subset of the format codec,
recursively (including NUL-free child field names, which the exporter's
`CString::new` requires). -/
def SupportedT : DataType → Prop
  | .list f => SupportedF f
  | .largeList f => SupportedF f
  | .struct fs => SupportedFs fs
  | .time32 u => u = .second ∨ u = .millisecond
  | .time64 u => u = .microsecond ∨ u = .nanosecond
  | .timestamp _ => False
  | _ => True
termination_by structural dt => dt

/-- a field whose name is NUL-free and whose type is supported. -/
def SupportedF : Field → Prop
  | .mk name dataType _ => containsNul name = false ∧ SupportedT dataType
termination_by structural f => f

/-- all fields of the list are supported. -/
def SupportedFs : List Field → Prop
  | [] => True
  | f :: fs => SupportedF f ∧ SupportedFs fs
termination_by structural l => l

end

mutual

/-- structural size of a data type (for induction). -/
def dtSize : DataType → Nat
  | .list f => 1 + fieldSize f
  | .largeList f => 1 + fieldSize f
  | .struct fs => 1 + fieldsSize fs
  | _ => 1
termination_by structural dt => dt

/-- structural size of a field (for induction). -/
def fieldSize : Field → Nat
  | .mk _ dt _ => 1 + dtSize dt
termination_by structural f => f

/-- structural size of a field list (for induction). -/
def fieldsSize : List Field → Nat
  | [] => 0
  | f :: fs => fieldSize f + fieldsSize fs
termination_by structural l => l

end

mutual

/-- structural size of an ArrayData tree (for induction). -/
def adSize : ArrayData → Nat
  | .mk _ _ _ _ _ _ children => 1 + adsSize children
termination_by structural d => d

/-- structural size of an ArrayData list (for induction). -/
def adsSize : List ArrayData → Nat
  | [] => 0
  | c :: cs => adSize c + adsSize cs
termination_by structural l => l

end

mutual

/-- Canonical form of an ArrayData tree: zero offsets throughout, buffer
lists with exactly the CDI shape for the node's type, every buffer exactly
its canonical byte length (the null-bit buffer `ceil(len, 8)` bytes, offset
buffers `len + 1` offsets, data buffers as long as the last offset says),
small-offset last entries within i32 range, and child data types matching
the type's field tree.  This is the class of trees the import reconstructs
verbatim. -/
def Canonical : ArrayData → Prop
  | .mk dt len _nc nbb off bufs children =>
    off = 0 ∧
    (match nbb with
     | none => True
     | some r => r.length = ceilDiv len 8) ∧
    CanonicalShape dt len bufs children

/-- per-type buffer/child shape of a canonical node. -/
def CanonicalShape : DataType → Nat → List Buffer → List ArrayData → Prop
  | .null, _, [], [] => True
  | .boolean, len, [b], [] => b.length = ceilDiv (len * 1) 8
  | .int8, len, [b], [] => b.length = ceilDiv (len * 8) 8
  | .int16, len, [b], [] => b.length = ceilDiv (len * 16) 8
  | .int32, len, [b], [] => b.length = ceilDiv (len * 32) 8
  | .int64, len, [b], [] => b.length = ceilDiv (len * 64) 8
  | .uint8, len, [b], [] => b.length = ceilDiv (len * 8) 8
  | .uint16, len, [b], [] => b.length = ceilDiv (len * 16) 8
  | .uint32, len, [b], [] => b.length = ceilDiv (len * 32) 8
  | .uint64, len, [b], [] => b.length = ceilDiv (len * 64) 8
  | .float32, len, [b], [] => b.length = ceilDiv (len * 32) 8
  | .float64, len, [b], [] => b.length = ceilDiv (len * 64) 8
  | .date32, len, [b], [] => b.length = ceilDiv (len * 32) 8
  | .date64, len, [b], [] => b.length = ceilDiv (len * 64) 8
  | .time32 _, len, [b], [] => b.length = ceilDiv (len * 32) 8
  | .time64 _, len, [b], [] => b.length = ceilDiv (len * 64) 8
  | .utf8, len, [offs, vals], [] =>
      offs.length = (len + 1) * 4 ∧ readLE offs (len * 4) 4 < 2 ^ 31 ∧
      vals.length = readLE offs (len * 4) 4
  | .binary, len, [offs, vals], [] =>
      offs.length = (len + 1) * 4 ∧ readLE offs (len * 4) 4 < 2 ^ 31 ∧
      vals.length = readLE offs (len * 4) 4
  | .largeUtf8, len, [offs, vals], [] =>
      offs.length = (len + 1) * 8 ∧ vals.length = readLE offs (len * 8) 8
  | .largeBinary, len, [offs, vals], [] =>
      offs.length = (len + 1) * 8 ∧ vals.length = readLE offs (len * 8) 8
  | .list f, len, [offs], [c] =>
      offs.length = (len + 1) * 4 ∧ ArrayData.dataType c = f.dataType ∧ Canonical c
  | .largeList f, len, [offs], [c] =>
      offs.length = (len + 1) * 8 ∧ ArrayData.dataType c = f.dataType ∧ Canonical c
  | .struct fs, _, [], children => CanonicalFields fs children
  | _, _, _, _ => False

/-- the children of a canonical struct node line up with its fields. -/
def CanonicalFields : List Field → List ArrayData → Prop
  | [], [] => True
  | f :: fs, c :: cs =>
      ArrayData.dataType c = f.dataType ∧ Canonical c ∧ CanonicalFields fs cs
  | _, _ => False

end

/-- the same array descriptor with its offset field replaced (used to state
that buffer lengths do not depend on the descriptor's offset). -/
def FFI_ArrowArray.withOffset (a : FFI_ArrowArray) (o : Nat) : FFI_ArrowArray :=
  match a with
  | .mk length null_count _ n_buffers n_children buffers children release =>
    .mk length null_count o n_buffers n_children buffers children release

/-- a name containing an interior NUL byte. -/
def nulName : String := "\x00"

/-- Modelled from the spec (sections 4.1/4.2): the native bit width of each
fixed-width primitive type ("Bool = 1"), the comparison target for the
`bit_width` table; `none` for non-primitive types. -/
def specNativeBitWidth : DataType → Option Nat
  | .boolean => some 1
  | .int8 => some 8
  | .uint8 => some 8
  | .int16 => some 16
  | .uint16 => some 16
  | .int32 => some 32
  | .uint32 => some 32
  | .float32 => some 32
  | .date32 => some 32
  | .time32 _ => some 32
  | .int64 => some 64
  | .uint64 => some 64
  | .float64 => some 64
  | .date64 => some 64
  | .time64 _ => some 64
  | .float16 => some 16
  | _ => none

/-- example: a Utf8 array of logical values [some "a", none, some "aaa"]
(offsets [0, 1, 1, 4], values "aaaa", validity bits 101). -/
def exampleUtf8Data : ArrayData :=
  .mk .utf8 3 1 (some [5]) 0
    [[0, 0, 0, 0, 1, 0, 0, 0, 1, 0, 0, 0, 4, 0, 0, 0], [97, 97, 97, 97]] []

/-- the array descriptor exported from `exampleUtf8Data`. -/
def exampleUtf8Array : FFI_ArrowArray :=
  FFI_ArrowArray.new exampleUtf8Data

/-- a schema record declaring Utf8 (as exported by this core). -/
def exampleUtf8Schema : FFI_ArrowSchema :=
  .mk (some "u") (some "") 0 0 [] (some .release_schema)

/-- example: an Int32 descriptor pair whose only data-buffer pointer is
null (childless), a CDI protocol violation. -/
def exampleNullBufArray : FFI_ArrowArray :=
  .mk 1 0 0 2 0 (some [none, none]) [] (some .release_array)

/-- a schema record declaring Int32. -/
def exampleInt32Schema : FFI_ArrowSchema :=
  .mk (some "i") (some "c0") 0 0 [] (some .release_schema)

/-- example: a struct descriptor whose single Int32 child has a null
data-buffer pointer. -/
def exampleStructBadArray : FFI_ArrowArray :=
  .mk 1 0 0 1 1 (some [none]) [exampleNullBufArray] (some .release_array)

/-- the matching struct schema with one Int32 child. -/
def exampleStructBadSchema : FFI_ArrowSchema :=
  .mk (some "+s") (some "") 0 1 [exampleInt32Schema] (some .release_schema)


theorem FfiResult.bind_eq_ok {α β : Type} {x : FfiResult α} {g : α → FfiResult β}
    {b : β} (h : FfiResult.bind x g = .ok b) : ∃ a, x = .ok a ∧ g a = .ok b := by
  cases x with
  | ok a => exact ⟨a, rfl, h⟩
  | err e => simp [FfiResult.bind] at h
  | panic m => simp [FfiResult.bind] at h



theorem fieldSize_le_of_mem {f : Field} {fs : List Field} (h : f ∈ fs) :
    fieldSize f ≤ fieldsSize fs := by
  induction fs with
  | nil => cases h
  | cons g gs ihg =>
    rcases List.mem_cons.mp h with h1 | h1
    · subst h1; simp [fieldsSize]
    · have := ihg h1
      simp only [fieldsSize]
      omega

/-- auxiliary list step for the schema round trip: a supported field list
exports to a child-schema list that decodes back, given the induction
hypothesis for its members. -/
theorem tryNewList_toFieldList (k : Nat)
    (ih : ∀ g : Field, fieldSize g < k → SupportedF g →
      FfiResult.bind (FFI_ArrowSchema.tryNew g) toField = .ok g)
    (fs : List Field) (hmem : ∀ g ∈ fs, fieldSize g < k) (hsup : SupportedFs fs) :
    ∃ css, FFI_ArrowSchema.tryNewList fs = .ok css ∧ css.length = fs.length ∧
      toFieldList fs.length css = .ok fs := by
  induction fs with
  | nil => exact ⟨[], rfl, rfl, rfl⟩
  | cons f fs ihl =>
    simp only [SupportedFs] at hsup
    obtain ⟨hf, hfs⟩ := hsup
    have h1 := ih f (hmem f (List.mem_cons_self f fs)) hf
    obtain ⟨c, hc, hcf⟩ := FfiResult.bind_eq_ok h1
    obtain ⟨css, hcss, hlen, hdec⟩ :=
      ihl (fun g hg => hmem g (List.mem_cons_of_mem f hg)) hfs
    refine ⟨c :: css, ?_, by simp [hlen], ?_⟩
    · simp only [FFI_ArrowSchema.tryNewList, hc, hcss, FfiResult.map]
    · simp only [List.length_cons, toFieldList, hcf, hlen, hdec, FfiResult.map]

/-- Schema round trip, size-bounded form: a supported field exports to a
schema record that `to_field` decodes back to exactly the same field. -/
theorem tryNew_toField_aux : ∀ k : Nat, ∀ f : Field, fieldSize f < k → SupportedF f →
    FfiResult.bind (FFI_ArrowSchema.tryNew f) toField = .ok f := by
  intro k
  induction k with
  | zero => exact fun f hf _ => absurd hf (Nat.not_lt_zero _)
  | succ k ih =>
    intro f hlt hsup
    obtain ⟨name, dt, b⟩ := f
    simp only [SupportedF] at hsup
    obtain ⟨hname, hdt⟩ := hsup
    simp only [fieldSize] at hlt
    cases dt with
    | list f1 =>
      simp only [SupportedT] at hdt
      simp only [dtSize] at hlt
      have h1 := ih f1 (by omega) hdt
      obtain ⟨c, hc, hcf⟩ := FfiResult.bind_eq_ok h1
      cases b <;>
        simp +decide [FfiResult.bind, FFI_ArrowSchema.tryNew, toFormat,
          FfiResult.ofExcept, tryNewChildren, hc, FfiResult.map, hname,
          toField, hcf, finishField, FFI_ArrowSchema.nullable]
    | largeList f1 =>
      simp only [SupportedT] at hdt
      simp only [dtSize] at hlt
      have h1 := ih f1 (by omega) hdt
      obtain ⟨c, hc, hcf⟩ := FfiResult.bind_eq_ok h1
      cases b <;>
        simp +decide [FfiResult.bind, FFI_ArrowSchema.tryNew, toFormat,
          FfiResult.ofExcept, tryNewChildren, hc, FfiResult.map, hname,
          toField, hcf, finishField, FFI_ArrowSchema.nullable]
    | struct fs =>
      simp only [SupportedT] at hdt
      simp only [dtSize] at hlt
      obtain ⟨css, hcss, hlen, hdec⟩ := tryNewList_toFieldList k
        (fun g hg hs => ih g hg hs) fs
        (fun g hg => by have := fieldSize_le_of_mem hg; omega) hdt
      cases fs with
      | nil =>
        have hnil : css = [] := List.length_eq_zero.mp (by simp [hlen])
        subst hnil
        cases b <;>
          simp +decide [FfiResult.bind, FFI_ArrowSchema.tryNew, toFormat,
            FfiResult.ofExcept, tryNewChildren, hcss, hname, toField,
            finishField, FFI_ArrowSchema.nullable]
      | cons f0 fs0 =>
        have hpos : 0 < css.length := by simp [hlen]
        simp only [List.length_cons] at hdec
        cases b <;>
          simp +decide [FfiResult.bind, FFI_ArrowSchema.tryNew, toFormat,
            FfiResult.ofExcept, tryNewChildren, hcss, hname, toField, hpos,
            hlen, hdec, finishField, FFI_ArrowSchema.nullable]
    | timestamp u => exact absurd hdt (by simp [SupportedT])
    | time32 u =>
      simp only [SupportedT] at hdt
      rcases hdt with h | h <;>
        (subst h
         cases b <;>
           simp +decide [FfiResult.bind, FFI_ArrowSchema.tryNew, toFormat,
             FfiResult.ofExcept, tryNewChildren, hname, toField, finishField,
             FFI_ArrowSchema.nullable])
    | time64 u =>
      simp only [SupportedT] at hdt
      rcases hdt with h | h <;>
        (subst h
         cases b <;>
           simp +decide [FfiResult.bind, FFI_ArrowSchema.tryNew, toFormat,
             FfiResult.ofExcept, tryNewChildren, hname, toField, finishField,
             FFI_ArrowSchema.nullable])
    | _ =>
      cases b <;>
        simp +decide [FfiResult.bind, FFI_ArrowSchema.tryNew, toFormat,
          FfiResult.ofExcept, tryNewChildren, hname, toField, finishField,
          FFI_ArrowSchema.nullable]

/-- Schema round trip: a supported field exports to a schema record that
`to_field` decodes back to exactly the same field. -/
theorem schemaRoundTrip (f : Field) (h : SupportedF f) :
    FfiResult.bind (FFI_ArrowSchema.tryNew f) toField = .ok f :=
  tryNew_toField_aux (fieldSize f + 1) f (Nat.lt_succ_self _) h


theorem adSize_le_of_mem {c : ArrayData} {cs : List ArrayData} (h : c ∈ cs) :
    adSize c ≤ adsSize cs := by
  induction cs with
  | nil => cases h
  | cons g gs ihg =>
    rcases List.mem_cons.mp h with h1 | h1
    · subst h1; simp [adsSize]
    · have := ihg h1
      simp only [adsSize]
      omega


theorem newList_eq_map : ∀ l : List ArrayData,
    FFI_ArrowArray.newList l = l.map FFI_ArrowArray.new := by
  intro l
  induction l with
  | nil => rfl
  | cons d ds ihd => simp [FFI_ArrowArray.newList, ihd]

theorem newList_length (l : List ArrayData) :
    (FFI_ArrowArray.newList l).length = l.length := by
  simp [newList_eq_map]

/-- a supported field list exports, with the decode inverse. -/
theorem tryNewList_ok (fs : List Field) (h : SupportedFs fs) :
    ∃ css, FFI_ArrowSchema.tryNewList fs = .ok css ∧ css.length = fs.length ∧
      toFieldList fs.length css = .ok fs :=
  tryNewList_toFieldList (fieldsSize fs + 1)
    (fun g hg hsg => tryNew_toField_aux (fieldsSize fs + 1) g hg hsg)
    fs (fun g hg => by have := fieldSize_le_of_mem hg; omega) h

/-- struct-children step of the import/export round trip, given the
induction hypothesis for smaller trees. -/
theorem toDataChildren_canonical (k : Nat)
    (ih : ∀ (d : ArrayData) (fld : Field) (s : FFI_ArrowSchema),
      adSize d < k → Canonical d → fld.dataType = d.dataType → SupportedF fld →
      FFI_ArrowSchema.tryNew fld = .ok s →
      toData (FFI_ArrowArray.new d) s = .ok d) :
    ∀ (fs : List Field) (children : List ArrayData) (css : List FFI_ArrowSchema),
      CanonicalFields fs children → SupportedFs fs →
      FFI_ArrowSchema.tryNewList fs = .ok css →
      (∀ c ∈ children, adSize c < k) →
      toDataChildren children.length (FFI_ArrowArray.newList children) css =
        .ok children := by
  intro fs
  induction fs with
  | nil =>
    intro children css hcf hsup htl hmem
    cases children with
    | cons c cs => simp [CanonicalFields] at hcf
    | nil =>
      simp only [FFI_ArrowSchema.tryNewList] at htl
      injection htl with h
      subst h
      rfl
  | cons f0 fs0 ihf =>
    intro children css hcf hsup htl hmem
    cases children with
    | nil => simp [CanonicalFields] at hcf
    | cons c0 cs0 =>
      simp only [CanonicalFields] at hcf
      obtain ⟨hdt0, hcan0, hcf0⟩ := hcf
      simp only [SupportedFs] at hsup
      obtain ⟨hsf0, hsfs0⟩ := hsup
      have hb := schemaRoundTrip f0 hsf0
      obtain ⟨s0, hs0, hs0f⟩ := FfiResult.bind_eq_ok hb
      simp only [FFI_ArrowSchema.tryNewList, hs0] at htl
      cases hrest : FFI_ArrowSchema.tryNewList fs0 with
      | err e => rw [hrest] at htl; simp [FfiResult.map] at htl
      | panic m => rw [hrest] at htl; simp [FfiResult.map] at htl
      | ok csrest =>
        rw [hrest] at htl
        simp only [FfiResult.map] at htl
        injection htl with h
        subst h
        have h0 := ih c0 f0 s0 (hmem c0 (List.mem_cons_self c0 cs0)) hcan0
          hdt0.symm hsf0 hs0
        have hrec := ihf cs0 csrest hcf0 hsfs0 hrest
          (fun c hc => hmem c (List.mem_cons_of_mem c0 hc))
        simp only [List.length_cons, FFI_ArrowArray.newList, toDataChildren, h0,
          hrec, FfiResult.map]

set_option maxHeartbeats 3200000 in
/-- Export/import round trip on canonical trees, size-bounded form: for a
canonical ArrayData `d` and a supported field `fld` carrying `d`'s data
type, exporting `d` and importing through the schema exported from `fld`
reconstructs `d` exactly. -/
theorem toData_new_aux : ∀ k : Nat, ∀ (d : ArrayData) (fld : Field) (s : FFI_ArrowSchema),
    adSize d < k → Canonical d → fld.dataType = d.dataType → SupportedF fld →
    FFI_ArrowSchema.tryNew fld = .ok s →
    toData (FFI_ArrowArray.new d) s = .ok d := by
  intro k
  induction k with
  | zero => exact fun d fld s hd _ _ _ _ => absurd hd (Nat.not_lt_zero _)
  | succ k ih =>
    intro d fld s hsz hcan hdt hsup htry
    obtain ⟨dt, len, nc, nbb, off, bufs, children⟩ := d
    obtain ⟨nm, fdt, b⟩ := fld
    simp only [ArrayData.dataType, Field.dataType] at hdt
    subst hdt
    unfold Canonical at hcan
    obtain ⟨hoff, hnbb, hshape⟩ := hcan
    subst hoff
    simp only [SupportedF] at hsup
    obtain ⟨hnm, hsupt⟩ := hsup
    cases fdt with
    | timestamp u => simp [SupportedT] at hsupt
    | float16 =>
      exfalso
      cases bufs with
      | nil => cases children <;> simp [CanonicalShape] at hshape
      | cons b0 bufs1 =>
        cases bufs1 with
        | nil => cases children <;> simp [CanonicalShape] at hshape
        | cons b1 bufs2 => cases bufs2 <;> cases children <;>
            simp [CanonicalShape] at hshape
    | null =>
      cases bufs with
      | cons b0 bufs1 => cases children <;> simp [CanonicalShape] at hshape
      | nil =>
      cases children with
      | cons c cs => simp [CanonicalShape] at hshape
      | nil =>
      simp only [FFI_ArrowSchema.tryNew, toFormat, FfiResult.ofExcept,
        tryNewChildren] at htry
      rw [if_neg (by simp +decide)] at htry
      rw [if_neg (by simp [hnm])] at htry
      injection htry with hs
      subst hs
      cases nbb with
      | none =>
        simp +decide [toData, FFI_ArrowArray.new, FFI_ArrowArray.newList, toField,
          finishField, buffersOf, collectBuffers, bufferLen, bufferLen1, bitWidth,
          FfiResult.ofExcept, FfiResult.map, createBuffer, nullBitBuffer,
          toDataChildren, Field.dataType, Field.name, ArrayData.new,
          FFI_ArrowArray.length, FFI_ArrowArray.n_buffers, FFI_ArrowArray.buffers,
          FFI_ArrowArray.n_children, FFI_ArrowArray.children,
          FFI_ArrowSchema.children, List.take_of_length_le]
      | some r =>
        simp only at hnbb
        simp +decide [toData, FFI_ArrowArray.new, FFI_ArrowArray.newList, toField,
          finishField, buffersOf, collectBuffers, bufferLen, bufferLen1, bitWidth,
          FfiResult.ofExcept, FfiResult.map, createBuffer, nullBitBuffer,
          toDataChildren, Field.dataType, Field.name, ArrayData.new,
          FFI_ArrowArray.length, FFI_ArrowArray.n_buffers, FFI_ArrowArray.buffers,
          FFI_ArrowArray.n_children, FFI_ArrowArray.children,
          FFI_ArrowSchema.children, hnbb, List.take_of_length_le]
    | utf8 =>
      cases bufs with
      | nil => cases children <;> simp [CanonicalShape] at hshape
      | cons offs bufs1 =>
      cases bufs1 with
      | nil => cases children <;> simp [CanonicalShape] at hshape
      | cons vals bufs2 =>
      cases bufs2 with
      | cons b2 bufs3 => cases children <;> simp [CanonicalShape] at hshape
      | nil =>
      cases children with
      | cons c cs => simp [CanonicalShape] at hshape
      | nil =>
      simp only [CanonicalShape] at hshape
      obtain ⟨hoffs, hsign, hvals⟩ := hshape
      have hsign2 : readLE offs (len * 4) 4 < 2147483648 := by simpa using hsign
      simp only [FFI_ArrowSchema.tryNew, toFormat, FfiResult.ofExcept,
        tryNewChildren] at htry
      rw [if_neg (by simp +decide)] at htry
      rw [if_neg (by simp [hnm])] at htry
      injection htry with hs
      subst hs
      cases nbb with
      | none =>
        simp +decide [toData, FFI_ArrowArray.new, FFI_ArrowArray.newList, toField,
          finishField, buffersOf, collectBuffers, bufferLen, bufferLen1, bitWidth,
          FfiResult.ofExcept, FfiResult.map, createBuffer, nullBitBuffer,
          toDataChildren, Field.dataType, Field.name, ArrayData.new,
          FFI_ArrowArray.length, FFI_ArrowArray.n_buffers, FFI_ArrowArray.buffers,
          FFI_ArrowArray.n_children, FFI_ArrowArray.children,
          FFI_ArrowSchema.children, usizeOfI32, hoffs, hsign2, hvals,
          Nat.mul_div_cancel, Nat.add_sub_cancel, Nat.succ_mul,
          List.take_of_length_le]
      | some r =>
        simp only at hnbb
        simp +decide [toData, FFI_ArrowArray.new, FFI_ArrowArray.newList, toField,
          finishField, buffersOf, collectBuffers, bufferLen, bufferLen1, bitWidth,
          FfiResult.ofExcept, FfiResult.map, createBuffer, nullBitBuffer,
          toDataChildren, Field.dataType, Field.name, ArrayData.new,
          FFI_ArrowArray.length, FFI_ArrowArray.n_buffers, FFI_ArrowArray.buffers,
          FFI_ArrowArray.n_children, FFI_ArrowArray.children,
          FFI_ArrowSchema.children, usizeOfI32, hoffs, hsign2, hvals, hnbb,
          Nat.mul_div_cancel, Nat.add_sub_cancel, Nat.succ_mul,
          List.take_of_length_le]
    | binary =>
      cases bufs with
      | nil => cases children <;> simp [CanonicalShape] at hshape
      | cons offs bufs1 =>
      cases bufs1 with
      | nil => cases children <;> simp [CanonicalShape] at hshape
      | cons vals bufs2 =>
      cases bufs2 with
      | cons b2 bufs3 => cases children <;> simp [CanonicalShape] at hshape
      | nil =>
      cases children with
      | cons c cs => simp [CanonicalShape] at hshape
      | nil =>
      simp only [CanonicalShape] at hshape
      obtain ⟨hoffs, hsign, hvals⟩ := hshape
      have hsign2 : readLE offs (len * 4) 4 < 2147483648 := by simpa using hsign
      simp only [FFI_ArrowSchema.tryNew, toFormat, FfiResult.ofExcept,
        tryNewChildren] at htry
      rw [if_neg (by simp +decide)] at htry
      rw [if_neg (by simp [hnm])] at htry
      injection htry with hs
      subst hs
      cases nbb with
      | none =>
        simp +decide [toData, FFI_ArrowArray.new, FFI_ArrowArray.newList, toField,
          finishField, buffersOf, collectBuffers, bufferLen, bufferLen1, bitWidth,
          FfiResult.ofExcept, FfiResult.map, createBuffer, nullBitBuffer,
          toDataChildren, Field.dataType, Field.name, ArrayData.new,
          FFI_ArrowArray.length, FFI_ArrowArray.n_buffers, FFI_ArrowArray.buffers,
          FFI_ArrowArray.n_children, FFI_ArrowArray.children,
          FFI_ArrowSchema.children, usizeOfI32, hoffs, hsign2, hvals,
          Nat.mul_div_cancel, Nat.add_sub_cancel, Nat.succ_mul,
          List.take_of_length_le]
      | some r =>
        simp only at hnbb
        simp +decide [toData, FFI_ArrowArray.new, FFI_ArrowArray.newList, toField,
          finishField, buffersOf, collectBuffers, bufferLen, bufferLen1, bitWidth,
          FfiResult.ofExcept, FfiResult.map, createBuffer, nullBitBuffer,
          toDataChildren, Field.dataType, Field.name, ArrayData.new,
          FFI_ArrowArray.length, FFI_ArrowArray.n_buffers, FFI_ArrowArray.buffers,
          FFI_ArrowArray.n_children, FFI_ArrowArray.children,
          FFI_ArrowSchema.children, usizeOfI32, hoffs, hsign2, hvals, hnbb,
          Nat.mul_div_cancel, Nat.add_sub_cancel, Nat.succ_mul,
          List.take_of_length_le]
    | largeUtf8 =>
      cases bufs with
      | nil => cases children <;> simp [CanonicalShape] at hshape
      | cons offs bufs1 =>
      cases bufs1 with
      | nil => cases children <;> simp [CanonicalShape] at hshape
      | cons vals bufs2 =>
      cases bufs2 with
      | cons b2 bufs3 => cases children <;> simp [CanonicalShape] at hshape
      | nil =>
      cases children with
      | cons c cs => simp [CanonicalShape] at hshape
      | nil =>
      simp only [CanonicalShape] at hshape
      obtain ⟨hoffs, hvals⟩ := hshape
      simp only [FFI_ArrowSchema.tryNew, toFormat, FfiResult.ofExcept,
        tryNewChildren] at htry
      rw [if_neg (by simp +decide)] at htry
      rw [if_neg (by simp [hnm])] at htry
      injection htry with hs
      subst hs
      cases nbb with
      | none =>
        simp +decide [toData, FFI_ArrowArray.new, FFI_ArrowArray.newList, toField,
          finishField, buffersOf, collectBuffers, bufferLen, bufferLen1, bitWidth,
          FfiResult.ofExcept, FfiResult.map, createBuffer, nullBitBuffer,
          toDataChildren, Field.dataType, Field.name, ArrayData.new,
          FFI_ArrowArray.length, FFI_ArrowArray.n_buffers, FFI_ArrowArray.buffers,
          FFI_ArrowArray.n_children, FFI_ArrowArray.children,
          FFI_ArrowSchema.children, usizeOfI64, hoffs, hvals,
          Nat.mul_div_cancel, Nat.add_sub_cancel, Nat.succ_mul,
          List.take_of_length_le]
      | some r =>
        simp only at hnbb
        simp +decide [toData, FFI_ArrowArray.new, FFI_ArrowArray.newList, toField,
          finishField, buffersOf, collectBuffers, bufferLen, bufferLen1, bitWidth,
          FfiResult.ofExcept, FfiResult.map, createBuffer, nullBitBuffer,
          toDataChildren, Field.dataType, Field.name, ArrayData.new,
          FFI_ArrowArray.length, FFI_ArrowArray.n_buffers, FFI_ArrowArray.buffers,
          FFI_ArrowArray.n_children, FFI_ArrowArray.children,
          FFI_ArrowSchema.children, usizeOfI64, hoffs, hvals, hnbb,
          Nat.mul_div_cancel, Nat.add_sub_cancel, Nat.succ_mul,
          List.take_of_length_le]
    | largeBinary =>
      cases bufs with
      | nil => cases children <;> simp [CanonicalShape] at hshape
      | cons offs bufs1 =>
      cases bufs1 with
      | nil => cases children <;> simp [CanonicalShape] at hshape
      | cons vals bufs2 =>
      cases bufs2 with
      | cons b2 bufs3 => cases children <;> simp [CanonicalShape] at hshape
      | nil =>
      cases children with
      | cons c cs => simp [CanonicalShape] at hshape
      | nil =>
      simp only [CanonicalShape] at hshape
      obtain ⟨hoffs, hvals⟩ := hshape
      simp only [FFI_ArrowSchema.tryNew, toFormat, FfiResult.ofExcept,
        tryNewChildren] at htry
      rw [if_neg (by simp +decide)] at htry
      rw [if_neg (by simp [hnm])] at htry
      injection htry with hs
      subst hs
      cases nbb with
      | none =>
        simp +decide [toData, FFI_ArrowArray.new, FFI_ArrowArray.newList, toField,
          finishField, buffersOf, collectBuffers, bufferLen, bufferLen1, bitWidth,
          FfiResult.ofExcept, FfiResult.map, createBuffer, nullBitBuffer,
          toDataChildren, Field.dataType, Field.name, ArrayData.new,
          FFI_ArrowArray.length, FFI_ArrowArray.n_buffers, FFI_ArrowArray.buffers,
          FFI_ArrowArray.n_children, FFI_ArrowArray.children,
          FFI_ArrowSchema.children, usizeOfI64, hoffs, hvals,
          Nat.mul_div_cancel, Nat.add_sub_cancel, Nat.succ_mul,
          List.take_of_length_le]
      | some r =>
        simp only at hnbb
        simp +decide [toData, FFI_ArrowArray.new, FFI_ArrowArray.newList, toField,
          finishField, buffersOf, collectBuffers, bufferLen, bufferLen1, bitWidth,
          FfiResult.ofExcept, FfiResult.map, createBuffer, nullBitBuffer,
          toDataChildren, Field.dataType, Field.name, ArrayData.new,
          FFI_ArrowArray.length, FFI_ArrowArray.n_buffers, FFI_ArrowArray.buffers,
          FFI_ArrowArray.n_children, FFI_ArrowArray.children,
          FFI_ArrowSchema.children, usizeOfI64, hoffs, hvals, hnbb,
          Nat.mul_div_cancel, Nat.add_sub_cancel, Nat.succ_mul,
          List.take_of_length_le]
    | list f1 =>
      cases bufs with
      | nil => cases children <;> simp [CanonicalShape] at hshape
      | cons offs bufs1 =>
      cases bufs1 with
      | cons b1 bufs2 => cases children <;> simp [CanonicalShape] at hshape
      | nil =>
      cases children with
      | nil => simp [CanonicalShape] at hshape
      | cons c cs =>
      cases cs with
      | cons c2 cs2 => simp [CanonicalShape] at hshape
      | nil =>
      simp only [CanonicalShape] at hshape
      obtain ⟨hoffs, hcdt, hccan⟩ := hshape
      simp only [SupportedT] at hsupt
      have hbind := schemaRoundTrip f1 hsupt
      obtain ⟨cs0, hcs0, hcs0f⟩ := FfiResult.bind_eq_ok hbind
      simp only [FFI_ArrowSchema.tryNew, toFormat, FfiResult.ofExcept,
        tryNewChildren, hcs0, FfiResult.map] at htry
      rw [if_neg (by simp +decide)] at htry
      rw [if_neg (by simp [hnm])] at htry
      injection htry with hs
      subst hs
      have hszc : adSize c < k := by
        simp only [adSize, adsSize] at hsz
        omega
      have hchild := ih c f1 cs0 hszc hccan hcdt.symm hsupt hcs0
      cases nbb with
      | none =>
        simp +decide [toData, FFI_ArrowArray.new, FFI_ArrowArray.newList, toField,
          finishField, buffersOf, collectBuffers, bufferLen, bufferLen1, bitWidth,
          FfiResult.ofExcept, FfiResult.map, createBuffer, nullBitBuffer,
          toDataChildren, Field.dataType, Field.name, ArrayData.new,
          FFI_ArrowArray.length, FFI_ArrowArray.n_buffers, FFI_ArrowArray.buffers,
          FFI_ArrowArray.n_children, FFI_ArrowArray.children,
          FFI_ArrowSchema.children, hoffs, hcs0f, hchild,
          List.take_of_length_le]
      | some r =>
        simp only at hnbb
        simp +decide [toData, FFI_ArrowArray.new, FFI_ArrowArray.newList, toField,
          finishField, buffersOf, collectBuffers, bufferLen, bufferLen1, bitWidth,
          FfiResult.ofExcept, FfiResult.map, createBuffer, nullBitBuffer,
          toDataChildren, Field.dataType, Field.name, ArrayData.new,
          FFI_ArrowArray.length, FFI_ArrowArray.n_buffers, FFI_ArrowArray.buffers,
          FFI_ArrowArray.n_children, FFI_ArrowArray.children,
          FFI_ArrowSchema.children, hoffs, hcs0f, hchild, hnbb,
          List.take_of_length_le]
    | largeList f1 =>
      cases bufs with
      | nil => cases children <;> simp [CanonicalShape] at hshape
      | cons offs bufs1 =>
      cases bufs1 with
      | cons b1 bufs2 => cases children <;> simp [CanonicalShape] at hshape
      | nil =>
      cases children with
      | nil => simp [CanonicalShape] at hshape
      | cons c cs =>
      cases cs with
      | cons c2 cs2 => simp [CanonicalShape] at hshape
      | nil =>
      simp only [CanonicalShape] at hshape
      obtain ⟨hoffs, hcdt, hccan⟩ := hshape
      simp only [SupportedT] at hsupt
      have hbind := schemaRoundTrip f1 hsupt
      obtain ⟨cs0, hcs0, hcs0f⟩ := FfiResult.bind_eq_ok hbind
      simp only [FFI_ArrowSchema.tryNew, toFormat, FfiResult.ofExcept,
        tryNewChildren, hcs0, FfiResult.map] at htry
      rw [if_neg (by simp +decide)] at htry
      rw [if_neg (by simp [hnm])] at htry
      injection htry with hs
      subst hs
      have hszc : adSize c < k := by
        simp only [adSize, adsSize] at hsz
        omega
      have hchild := ih c f1 cs0 hszc hccan hcdt.symm hsupt hcs0
      cases nbb with
      | none =>
        simp +decide [toData, FFI_ArrowArray.new, FFI_ArrowArray.newList, toField,
          finishField, buffersOf, collectBuffers, bufferLen, bufferLen1, bitWidth,
          FfiResult.ofExcept, FfiResult.map, createBuffer, nullBitBuffer,
          toDataChildren, Field.dataType, Field.name, ArrayData.new,
          FFI_ArrowArray.length, FFI_ArrowArray.n_buffers, FFI_ArrowArray.buffers,
          FFI_ArrowArray.n_children, FFI_ArrowArray.children,
          FFI_ArrowSchema.children, hoffs, hcs0f, hchild,
          List.take_of_length_le]
      | some r =>
        simp only at hnbb
        simp +decide [toData, FFI_ArrowArray.new, FFI_ArrowArray.newList, toField,
          finishField, buffersOf, collectBuffers, bufferLen, bufferLen1, bitWidth,
          FfiResult.ofExcept, FfiResult.map, createBuffer, nullBitBuffer,
          toDataChildren, Field.dataType, Field.name, ArrayData.new,
          FFI_ArrowArray.length, FFI_ArrowArray.n_buffers, FFI_ArrowArray.buffers,
          FFI_ArrowArray.n_children, FFI_ArrowArray.children,
          FFI_ArrowSchema.children, hoffs, hcs0f, hchild, hnbb,
          List.take_of_length_le]
    | struct fs =>
      cases bufs with
      | cons b0 bufs1 => cases children <;> simp [CanonicalShape] at hshape
      | nil =>
      simp only [CanonicalShape] at hshape
      simp only [SupportedT] at hsupt
      obtain ⟨css, hcss, hlen, hdec⟩ := tryNewList_ok fs hsupt
      simp only [FFI_ArrowSchema.tryNew, toFormat, FfiResult.ofExcept,
        tryNewChildren, hcss] at htry
      rw [if_neg (by simp +decide)] at htry
      rw [if_neg (by simp [hnm])] at htry
      injection htry with hs
      subst hs
      have hmemk : ∀ c ∈ children, adSize c < k := by
        intro c hc
        have h1 := adSize_le_of_mem hc
        simp only [adSize] at hsz
        omega
      have hkids := toDataChildren_canonical k
        (fun d fld s hd hc hdt hsu ht => ih d fld s hd hc hdt hsu ht)
        fs children css hshape hsupt hcss hmemk
      cases children with
      | nil =>
        have hfs : fs = [] := by
          cases fs with
          | nil => rfl
          | cons f0 fs0 => simp [CanonicalFields] at hshape
        subst hfs
        have hcssnil : css = [] := List.length_eq_zero.mp (by simp [hlen])
        subst hcssnil
        cases nbb with
        | none =>
          simp +decide [toData, FFI_ArrowArray.new, FFI_ArrowArray.newList, toField,
            finishField, buffersOf, collectBuffers, createBuffer, nullBitBuffer,
            toDataChildren, Field.dataType, Field.name, ArrayData.new,
            FFI_ArrowArray.length, FFI_ArrowArray.n_buffers, FFI_ArrowArray.buffers,
            FFI_ArrowArray.n_children, FFI_ArrowArray.children,
            FFI_ArrowSchema.children, List.take_of_length_le]
        | some r =>
          simp only at hnbb
          simp +decide [toData, FFI_ArrowArray.new, FFI_ArrowArray.newList, toField,
            finishField, buffersOf, collectBuffers, createBuffer, nullBitBuffer,
            toDataChildren, Field.dataType, Field.name, ArrayData.new,
            FFI_ArrowArray.length, FFI_ArrowArray.n_buffers, FFI_ArrowArray.buffers,
            FFI_ArrowArray.n_children, FFI_ArrowArray.children,
            FFI_ArrowSchema.children, hnbb, List.take_of_length_le]
      | cons c0 cs0 =>
        have hfs : fs ≠ [] := by
          intro hf
          subst hf
          simp [CanonicalFields] at hshape
        have hpos : 0 < css.length := by
          rw [hlen]
          cases fs with
          | nil => exact absurd rfl hfs
          | cons f0 fs0 => simp
        rw [← hlen] at hdec
        simp only [List.length_cons, FFI_ArrowArray.newList] at hkids
        cases nbb with
        | none =>
          simp +decide [toData, FFI_ArrowArray.new, FFI_ArrowArray.newList, toField,
            finishField, buffersOf, collectBuffers, createBuffer, nullBitBuffer,
            Field.dataType, Field.name, ArrayData.new, newList_length,
            FFI_ArrowArray.length, FFI_ArrowArray.n_buffers, FFI_ArrowArray.buffers,
            FFI_ArrowArray.n_children, FFI_ArrowArray.children,
            FFI_ArrowSchema.children, hpos, hdec, hkids,
            List.take_of_length_le]
        | some r =>
          simp only at hnbb
          simp +decide [toData, FFI_ArrowArray.new, FFI_ArrowArray.newList, toField,
            finishField, buffersOf, collectBuffers, createBuffer, nullBitBuffer,
            Field.dataType, Field.name, ArrayData.new, newList_length,
            FFI_ArrowArray.length, FFI_ArrowArray.n_buffers, FFI_ArrowArray.buffers,
            FFI_ArrowArray.n_children, FFI_ArrowArray.children,
            FFI_ArrowSchema.children, hpos, hdec, hkids, hnbb,
            List.take_of_length_le]
    | time32 u =>
      simp only [SupportedT] at hsupt
      rcases hsupt with hu | hu <;> subst hu <;>
      (cases bufs with
       | nil => cases children <;> simp [CanonicalShape] at hshape
       | cons b0 bufs1 =>
       cases bufs1 with
       | cons b1 bufs2 => cases children <;> simp [CanonicalShape] at hshape
       | nil =>
       cases children with
       | cons c cs => simp [CanonicalShape] at hshape
       | nil =>
       simp only [CanonicalShape] at hshape
       simp only [FFI_ArrowSchema.tryNew, toFormat, FfiResult.ofExcept,
         tryNewChildren] at htry
       rw [if_neg (by simp +decide)] at htry
       rw [if_neg (by simp [hnm])] at htry
       injection htry with hs
       subst hs
       cases nbb with
       | none =>
         simp +decide [toData, FFI_ArrowArray.new, FFI_ArrowArray.newList, toField,
           finishField, buffersOf, collectBuffers, bufferLen, bufferLen1, bitWidth,
           FfiResult.ofExcept, FfiResult.map, createBuffer, nullBitBuffer,
           toDataChildren, Field.dataType, Field.name, ArrayData.new,
           FFI_ArrowArray.length, FFI_ArrowArray.n_buffers, FFI_ArrowArray.buffers,
           FFI_ArrowArray.n_children, FFI_ArrowArray.children,
           FFI_ArrowSchema.children, hshape, List.take_of_length_le]
       | some r =>
         simp only at hnbb
         simp +decide [toData, FFI_ArrowArray.new, FFI_ArrowArray.newList, toField,
           finishField, buffersOf, collectBuffers, bufferLen, bufferLen1, bitWidth,
           FfiResult.ofExcept, FfiResult.map, createBuffer, nullBitBuffer,
           toDataChildren, Field.dataType, Field.name, ArrayData.new,
           FFI_ArrowArray.length, FFI_ArrowArray.n_buffers, FFI_ArrowArray.buffers,
           FFI_ArrowArray.n_children, FFI_ArrowArray.children,
           FFI_ArrowSchema.children, hshape, hnbb, List.take_of_length_le])
    | time64 u =>
      simp only [SupportedT] at hsupt
      rcases hsupt with hu | hu <;> subst hu <;>
      (cases bufs with
       | nil => cases children <;> simp [CanonicalShape] at hshape
       | cons b0 bufs1 =>
       cases bufs1 with
       | cons b1 bufs2 => cases children <;> simp [CanonicalShape] at hshape
       | nil =>
       cases children with
       | cons c cs => simp [CanonicalShape] at hshape
       | nil =>
       simp only [CanonicalShape] at hshape
       simp only [FFI_ArrowSchema.tryNew, toFormat, FfiResult.ofExcept,
         tryNewChildren] at htry
       rw [if_neg (by simp +decide)] at htry
       rw [if_neg (by simp [hnm])] at htry
       injection htry with hs
       subst hs
       cases nbb with
       | none =>
         simp +decide [toData, FFI_ArrowArray.new, FFI_ArrowArray.newList, toField,
           finishField, buffersOf, collectBuffers, bufferLen, bufferLen1, bitWidth,
           FfiResult.ofExcept, FfiResult.map, createBuffer, nullBitBuffer,
           toDataChildren, Field.dataType, Field.name, ArrayData.new,
           FFI_ArrowArray.length, FFI_ArrowArray.n_buffers, FFI_ArrowArray.buffers,
           FFI_ArrowArray.n_children, FFI_ArrowArray.children,
           FFI_ArrowSchema.children, hshape, List.take_of_length_le]
       | some r =>
         simp only at hnbb
         simp +decide [toData, FFI_ArrowArray.new, FFI_ArrowArray.newList, toField,
           finishField, buffersOf, collectBuffers, bufferLen, bufferLen1, bitWidth,
           FfiResult.ofExcept, FfiResult.map, createBuffer, nullBitBuffer,
           toDataChildren, Field.dataType, Field.name, ArrayData.new,
           FFI_ArrowArray.length, FFI_ArrowArray.n_buffers, FFI_ArrowArray.buffers,
           FFI_ArrowArray.n_children, FFI_ArrowArray.children,
           FFI_ArrowSchema.children, hshape, hnbb, List.take_of_length_le])
    | _ =>
      cases bufs with
      | nil => cases children <;> simp [CanonicalShape] at hshape
      | cons b0 bufs1 =>
      cases bufs1 with
      | cons b1 bufs2 => cases children <;> simp [CanonicalShape] at hshape
      | nil =>
      cases children with
      | cons c cs => simp [CanonicalShape] at hshape
      | nil =>
      simp only [CanonicalShape] at hshape
      simp only [FFI_ArrowSchema.tryNew, toFormat, FfiResult.ofExcept,
        tryNewChildren] at htry
      rw [if_neg (by simp +decide)] at htry
      rw [if_neg (by simp [hnm])] at htry
      injection htry with hs
      subst hs
      cases nbb with
      | none =>
        simp +decide [toData, FFI_ArrowArray.new, FFI_ArrowArray.newList, toField,
          finishField, buffersOf, collectBuffers, bufferLen, bufferLen1, bitWidth,
          FfiResult.ofExcept, FfiResult.map, createBuffer, nullBitBuffer,
          toDataChildren, Field.dataType, Field.name, ArrayData.new,
          FFI_ArrowArray.length, FFI_ArrowArray.n_buffers, FFI_ArrowArray.buffers,
          FFI_ArrowArray.n_children, FFI_ArrowArray.children,
          FFI_ArrowSchema.children, hshape, List.take_of_length_le]
      | some r =>
        simp only at hnbb
        simp +decide [toData, FFI_ArrowArray.new, FFI_ArrowArray.newList, toField,
          finishField, buffersOf, collectBuffers, bufferLen, bufferLen1, bitWidth,
          FfiResult.ofExcept, FfiResult.map, createBuffer, nullBitBuffer,
          toDataChildren, Field.dataType, Field.name, ArrayData.new,
          FFI_ArrowArray.length, FFI_ArrowArray.n_buffers, FFI_ArrowArray.buffers,
          FFI_ArrowArray.n_children, FFI_ArrowArray.children,
          FFI_ArrowSchema.children, hshape, hnbb, List.take_of_length_le]


/-- inversion of a successful schema export: the record carries the field's
name and the nullable flag encoded as `nullable as i64 * 2`. -/
theorem tryNew_ok_inv (f : Field) (s : FFI_ArrowSchema)
    (h : FFI_ArrowSchema.tryNew f = .ok s) :
    s.name = some f.name ∧ s.flags = (if f.nullable then 1 else 0) * 2 := by
  obtain ⟨nm, dt, b⟩ := f
  simp only [FFI_ArrowSchema.tryNew] at h
  cases htf : FfiResult.ofExcept (toFormat dt) with
  | err e => simp [htf] at h
  | panic m => simp [htf] at h
  | ok fmt =>
    simp only [htf] at h
    cases hc : tryNewChildren dt with
    | err e => simp [hc] at h
    | panic m => simp [hc] at h
    | ok cs =>
      simp only [hc] at h
      cases h1 : containsNul fmt with
      | true => simp [h1] at h
      | false =>
        simp only [h1, Bool.false_eq_true, if_false] at h
        cases h2 : containsNul nm with
        | true => simp [h2] at h
        | false =>
          simp only [h2, Bool.false_eq_true, if_false] at h
          injection h with hs
          subst hs
          exact ⟨rfl, rfl⟩

/-- C1 (amended): the export/import round trip reproduces every canonical
ArrayData tree of supported data type exactly. -/
theorem claim1_round_trip_canonical (d : ArrayData)
    (h1 : Canonical d) (h2 : SupportedT d.dataType) :
    exportImportRoundTrip d = .ok d := by
  have hsupf : SupportedF (Field.mk "" d.dataType (d.nullCount != 0)) := by
    simp only [SupportedF]
    exact ⟨rfl, h2⟩
  have hb := schemaRoundTrip _ hsupf
  obtain ⟨s, hs, _⟩ := FfiResult.bind_eq_ok hb
  have hmain := toData_new_aux (adSize d + 1) d (Field.mk "" d.dataType (d.nullCount != 0)) s
    (Nat.lt_succ_self _) h1 (by simp [Field.dataType]) hsupf hs
  simp only [exportImportRoundTrip, ArrowArray.tryNew, Field.dataType, hs]
  exact hmain

/-- C1 witness: a concrete canonical Utf8 array with one null round-trips. -/
theorem claim1_witness :
    exportImportRoundTrip exampleUtf8Data = .ok exampleUtf8Data :=
  claim1_round_trip_canonical exampleUtf8Data
    (by simp +decide [exampleUtf8Data, Canonical, CanonicalShape, ceilDiv, readLE])
    (by simp +decide [exampleUtf8Data, ArrayData.dataType, SupportedT])

/-- C1 counterexample: an Int32 ArrayData with logical offset 1 over an
8-byte buffer reimports with the buffer truncated to 4 bytes, so the round
trip does not return the original tree. -/
theorem claim1_counterexample :
    exportImportRoundTrip (.mk .int32 1 0 none 1 [[7, 0, 0, 0, 9, 9, 9, 9]] []) =
      .ok (.mk .int32 1 0 none 1 [[7, 0, 0, 0]] []) ∧
    ArrayData.mk .int32 1 0 none 1 [[7, 0, 0, 0]] [] ≠
      .mk .int32 1 0 none 1 [[7, 0, 0, 0, 9, 9, 9, 9]] [] := by
  constructor
  · rfl
  · simp +decide

/-- C2 (amended): for every NUL-free name, nullable flag, and data type in
the supported table (recursively, with NUL-free inner field names), the
schema descriptor round trip returns exactly the original field. -/
theorem claim2_schema_round_trip (nm : String) (dt : DataType) (b : Bool)
    (h1 : containsNul nm = false) (h2 : SupportedT dt) :
    FfiResult.bind (FFI_ArrowSchema.tryNew (.mk nm dt b)) toField =
      .ok (.mk nm dt b) :=
  schemaRoundTrip (.mk nm dt b) (by simp only [SupportedF]; exact ⟨h1, h2⟩)

/-- C2 witness: a List field with a named Int32 item round-trips. -/
theorem claim2_witness :
    FfiResult.bind
      (FFI_ArrowSchema.tryNew (.mk "col" (.list (.mk "item" .int32 false)) true))
      toField = .ok (.mk "col" (.list (.mk "item" .int32 false)) true) :=
  claim2_schema_round_trip "col" (.list (.mk "item" .int32 false)) true
    (by decide) (by simp +decide [SupportedT, SupportedF])

/-- C2 counterexample: `try_new` does not succeed for every name string:
a name with an interior NUL makes the `CString::new(name).unwrap()` panic. -/
theorem claim2_counterexample :
    FFI_ArrowSchema.tryNew (.mk nulName .int32 false) = .panic msgCStringNul := rfl

/-- C3 (amended): for every fixed-width primitive except Float16, buffer 0
is one validity bit per element, buffer 1 has the native bit width, and any
index of 2 or more is the "expects 2 buffers" error.  (Float16 is excluded:
`bit_width` has no arm for it.) -/
theorem claim3_bit_width (dt : DataType) (w i : Nat)
    (hw : specNativeBitWidth dt = some w) (hf : dt ≠ .float16) (hi : 2 ≤ i) :
    bitWidth dt 0 = .ok 1 ∧ bitWidth dt 1 = .ok w ∧
    bitWidth dt i = .error (.cDataInterface (.expectsBuffers dt 2 i)) := by
  obtain ⟨n, rfl⟩ : ∃ n, i = n + 2 := ⟨i - 2, by omega⟩
  cases dt <;> (try exact absurd rfl hf) <;>
    simp [specNativeBitWidth] at hw <;> subst hw <;> simp +decide [bitWidth]

/-- C3 witness: Int32 has widths 1, 32 and errors at index 2. -/
theorem claim3_witness :
    bitWidth .int32 0 = .ok 1 ∧ bitWidth .int32 1 = .ok 32 ∧
    bitWidth .int32 2 = .error (.cDataInterface (.expectsBuffers .int32 2 2)) :=
  claim3_bit_width .int32 32 2 rfl (by simp) (by omega)

/-- C3 counterexample: Float16 is a float type of the supported table, but
`bit_width(Float16, 1)` is the catch-all "not supported" error rather than
the native width 16, and index 2 is not the "expects 2 buffers" error. -/
theorem claim3_counterexample :
    bitWidth .float16 1 = .error (.cDataInterface (.unsupportedDataType .float16)) ∧
    bitWidth .float16 1 ≠ .ok 16 ∧
    bitWidth .float16 2 = .error (.cDataInterface (.unsupportedDataType .float16)) ∧
    bitWidth .float16 2 ≠ .error (.cDataInterface (.expectsBuffers .float16 2 2)) := by
  refine ⟨rfl, by simp [bitWidth], rfl, by simp [bitWidth]⟩

/-- C4: buffer-length law for the variable-width types: buffer 1 is
`(length + 1)` offsets of 4 (small) or 8 (Large) bytes; buffer 2 is the
value of the offset-buffer element at position `length` (read through the
pointer at `buffers[1]`); and no buffer length depends on the descriptor's
offset field. -/
theorem claim4_buffer_len (array : FFI_ArrowArray) (schema : FFI_ArrowSchema)
    (fld : Field) (hts : toField schema = .ok fld) :
    ((fld.dataType = .utf8 ∨ fld.dataType = .binary ∨
        (∃ f, fld.dataType = .list f)) →
      bufferLen array schema 1 = .ok ((array.length + 1) * 4) ∧
      (∀ bs offs, array.buffers = some bs → bs[1]? = some (some offs) →
        (array.length + 1) * 4 ≤ offs.length →
        readLE offs (array.length * 4) 4 < 2 ^ 31 →
        bufferLen array schema 2 = .ok (readLE offs (array.length * 4) 4))) ∧
    ((fld.dataType = .largeUtf8 ∨ fld.dataType = .largeBinary ∨
        (∃ f, fld.dataType = .largeList f)) →
      bufferLen array schema 1 = .ok ((array.length + 1) * 8) ∧
      (∀ bs offs, array.buffers = some bs → bs[1]? = some (some offs) →
        (array.length + 1) * 8 ≤ offs.length →
        bufferLen array schema 2 = .ok (readLE offs (array.length * 8) 8))) ∧
    (∀ o i, bufferLen (array.withOffset o) schema i = bufferLen array schema i) := by
  refine ⟨?_, ?_, ?_⟩
  · rintro (h | h | ⟨f, h⟩) <;>
      (constructor
       · simp +decide [bufferLen, hts, h, bitWidth, FfiResult.ofExcept]
       · intro bs offs hbs hoffs hle hsign
         have hsign2 : readLE offs (array.length * 4) 4 < 2147483648 := by
           simpa using hsign
         have hle2 : array.length * 4 + 4 ≤ offs.length := by omega
         simp +decide [bufferLen, bufferLen1, hts, h, bitWidth, FfiResult.ofExcept,
           hbs, hoffs, usizeOfI32, hsign2, hle2, Nat.mul_div_cancel,
           Nat.add_sub_cancel, Nat.succ_mul])
  · rintro (h | h | ⟨f, h⟩) <;>
      (constructor
       · simp +decide [bufferLen, hts, h, bitWidth, FfiResult.ofExcept]
       · intro bs offs hbs hoffs hle
         have hle2 : array.length * 8 + 8 ≤ offs.length := by omega
         simp +decide [bufferLen, bufferLen1, hts, h, bitWidth, FfiResult.ofExcept,
           hbs, hoffs, usizeOfI64, hle2, Nat.mul_div_cancel,
           Nat.add_sub_cancel, Nat.succ_mul])
  · intro o i
    cases array with
    | mk length null_count offset n_buffers n_children buffers children release =>
      rfl

/-- C4 witness: the exported example Utf8 array has a 16-byte offset buffer
and a 4-byte values buffer, independently of its offset field. -/
theorem claim4_witness :
    bufferLen exampleUtf8Array exampleUtf8Schema 1 = .ok 16 ∧
    bufferLen exampleUtf8Array exampleUtf8Schema 2 = .ok 4 ∧
    bufferLen (exampleUtf8Array.withOffset 7) exampleUtf8Schema 1 =
      bufferLen exampleUtf8Array exampleUtf8Schema 1 := by
  have h := claim4_buffer_len exampleUtf8Array exampleUtf8Schema
    (.mk "" .utf8 false) rfl
  refine ⟨(h.1 (Or.inl rfl)).1, ?_, h.2.2 7 1⟩
  exact (h.1 (Or.inl rfl)).2
    [some [5], some [0, 0, 0, 0, 1, 0, 0, 0, 1, 0, 0, 0, 4, 0, 0, 0],
      some [97, 97, 97, 97]]
    [0, 0, 0, 0, 1, 0, 0, 0, 1, 0, 0, 0, 4, 0, 0, 0] rfl rfl (by decide) (by decide)

/-- C5: dropping a descriptor invokes its release callback iff the release
field is non-null; after this core's callback runs the release field is
null, so a second drop invokes nothing. -/
theorem claim5_release_one_shot (s : FFI_ArrowSchema) (a : FFI_ArrowArray) :
    ((s.drop).2 = true ↔ s.release ≠ none) ∧
    (s.release = some .release_schema →
      ((s.drop).1.release = none ∧ ((s.drop).1.drop).2 = false)) ∧
    ((a.drop).2 = true ↔ a.release ≠ none) ∧
    (a.release = some .release_array →
      ((a.drop).1.release = none ∧ ((a.drop).1.drop).2 = false)) := by
  obtain ⟨fo, na, fl, ncs, cs, rel⟩ := s
  obtain ⟨l, nc, o, nb, nch, bufs, ch, rela⟩ := a
  refine ⟨?_, ?_, ?_, ?_⟩
  · cases rel <;>
      simp [FFI_ArrowSchema.drop, FFI_ArrowSchema.release]
  · rintro hr
    simp only [FFI_ArrowSchema.release] at hr
    subst hr
    simp [FFI_ArrowSchema.drop, FFI_ArrowSchema.release, runSchemaRelease,
      release_schema]
  · cases rela <;>
      simp [FFI_ArrowArray.drop, FFI_ArrowArray.release]
  · rintro hr
    simp only [FFI_ArrowArray.release] at hr
    subst hr
    simp [FFI_ArrowArray.drop, FFI_ArrowArray.release, runArrayRelease,
      release_array]

/-- C5 witness: on concretely exported descriptors a first drop runs the
callback and nulls the release field; a second drop runs nothing. -/
theorem claim5_witness :
    ((FFI_ArrowSchema.mk (some "i") (some "") 0 0 [] (some .release_schema)).drop).2 = true ∧
    (((FFI_ArrowSchema.mk (some "i") (some "") 0 0 [] (some .release_schema)).drop).1.release = none ∧
      ((((FFI_ArrowSchema.mk (some "i") (some "") 0 0 [] (some .release_schema)).drop).1.drop).2 = false)) ∧
    ((FFI_ArrowArray.empty.drop).2 = false) := by
  have h := claim5_release_one_shot
    (.mk (some "i") (some "") 0 0 [] (some .release_schema)) FFI_ArrowArray.empty
  exact ⟨h.1.mpr (by simp [FFI_ArrowSchema.release]), h.2.1 rfl, by
    have := h.2.2.1
    simp [FFI_ArrowArray.drop, FFI_ArrowArray.empty, FFI_ArrowArray.release]⟩

/-- C6: try_from_raw errors (MemoryError, the NullPointer case of the error
taxonomy) exactly when either pointer is null, and otherwise wraps the two
records. -/
theorem claim6_try_from_raw (a : Option FFI_ArrowArray) (s : Option FFI_ArrowSchema) :
    ((a = none ∨ s = none) →
      ArrowArray.tryFromRaw a s = .error (.memoryError
        "At least one of the pointers passed to `try_from_raw` is null")) ∧
    (∀ a0 s0, a = some a0 → s = some s0 →
      ArrowArray.tryFromRaw a s = .ok ⟨a0, s0⟩) := by
  constructor
  · rintro (h | h) <;> subst h
    · cases s <;> rfl
    · cases a <;> rfl
  · rintro a0 s0 rfl rfl
    rfl

/-- C6 witness: a null array pointer is rejected; two valid pointers wrap. -/
theorem claim6_witness :
    ArrowArray.tryFromRaw none (some FFI_ArrowSchema.empty) = .error (.memoryError
      "At least one of the pointers passed to `try_from_raw` is null") ∧
    ArrowArray.tryFromRaw (some FFI_ArrowArray.empty) (some FFI_ArrowSchema.empty) =
      .ok ⟨FFI_ArrowArray.empty, FFI_ArrowSchema.empty⟩ :=
  ⟨(claim6_try_from_raw none (some FFI_ArrowSchema.empty)).1 (Or.inl rfl),
   (claim6_try_from_raw (some FFI_ArrowArray.empty) (some FFI_ArrowSchema.empty)).2
    FFI_ArrowArray.empty FFI_ArrowSchema.empty rfl rfl⟩

/-- C7 (amended): failures of the buffer phase — in particular a null
non-validity buffer pointer, reported by `buffers()` as the
"external buffer at position i is null" error — short-circuit `to_data`
into a returned error at the descriptor where they occur. -/
theorem claim7_buffer_error_returned (array : FFI_ArrowArray)
    (schema : FFI_ArrowSchema) (fld : Field) (e : ArrowError)
    (hts : toField schema = .ok fld) (hb : buffersOf array schema = .err e) :
    toData array schema = .err e := by
  cases array with
  | mk length null_count offset n_buffers n_children bufs children release =>
    simp only [toData, hts, hb]

/-- C7 witness: a childless Int32 descriptor whose data-buffer pointer is
null yields the returned protocol error, not a panic. -/
theorem claim7_witness :
    toData exampleNullBufArray exampleInt32Schema =
      .err (.cDataInterface (.nullBufferAt 0)) :=
  claim7_buffer_error_returned exampleNullBufArray exampleInt32Schema
    (.mk "c0" .int32 false) (.cDataInterface (.nullBufferAt 0)) rfl rfl

/-- C7 counterexample: the same null-buffer violation inside a child of a
struct descriptor is not reported as a returned error: the child error is
`.unwrap()`ed by the child loop and the reconstruction panics. -/
theorem claim7_counterexample :
    toData exampleNullBufArray exampleInt32Schema =
      .err (.cDataInterface (.nullBufferAt 0)) ∧
    toData exampleStructBadArray exampleStructBadSchema = .panic msgUnwrapErr := by
  exact ⟨rfl, rfl⟩

/-- C8: the exported array descriptor copies length, null count and offset
from the source, prepends the (possibly absent) validity buffer to the data
buffers with `n_buffers` counting all of them, and exports each child
recursively. -/
theorem claim8_array_new_fields (d : ArrayData) :
    (FFI_ArrowArray.new d).length = d.len ∧
    (FFI_ArrowArray.new d).null_count = d.nullCount ∧
    (FFI_ArrowArray.new d).offset = d.offset ∧
    (FFI_ArrowArray.new d).buffers = some (d.nullBuffer :: d.buffers.map some) ∧
    (FFI_ArrowArray.new d).n_buffers = 1 + d.buffers.length ∧
    (FFI_ArrowArray.new d).n_children = d.childData.length ∧
    (FFI_ArrowArray.new d).children = d.childData.map FFI_ArrowArray.new := by
  obtain ⟨dt, len, nc, nbb, off, bufs, children⟩ := d
  simp [FFI_ArrowArray.new, newList_eq_map, ArrayData.len, ArrayData.nullCount,
    ArrayData.offset, ArrayData.nullBuffer, ArrayData.buffers, ArrayData.childData,
    FFI_ArrowArray.length, FFI_ArrowArray.null_count, FFI_ArrowArray.offset,
    FFI_ArrowArray.buffers, FFI_ArrowArray.n_buffers, FFI_ArrowArray.n_children,
    FFI_ArrowArray.children, Nat.add_comm]

/-- C9: try_new builds the exported schema from
`Field::new("", data.data_type(), data.null_count() != 0)`: the schema name
is always empty and the nullable flag is set iff the null count is
non-zero, whatever field the producer had. -/
theorem claim9_export_field_identity (d : ArrayData) (br : ArrowArray)
    (h : ArrowArray.tryNew d = .ok br) :
    br.schema.name = some "" ∧
    (br.schema.nullable = true ↔ d.nullCount ≠ 0) ∧
    br.array = FFI_ArrowArray.new d := by
  simp only [ArrowArray.tryNew] at h
  cases ht : FFI_ArrowSchema.tryNew (.mk "" d.dataType (d.nullCount != 0)) with
  | err e => rw [ht] at h; exact absurd h (by simp)
  | panic m => rw [ht] at h; exact absurd h (by simp)
  | ok s =>
    rw [ht] at h
    injection h with hbr
    subst hbr
    obtain ⟨hname, hflags⟩ := tryNew_ok_inv _ _ ht
    refine ⟨hname, ?_, rfl⟩
    rw [FFI_ArrowSchema.nullable, hflags]
    simp only [Field.nullable]
    by_cases hnc : d.nullCount = 0
    · simp [hnc]
    · simp [hnc, bne_iff_ne]

/-- C9 witness: exporting a concrete Int32 array with one null yields the
empty schema name, a set nullable flag, and the exported array record. -/
theorem claim9_witness :
    (ArrowArray.mk
        (FFI_ArrowArray.new (.mk .int32 1 1 (some [0]) 0 [[7, 0, 0, 0]] []))
        (.mk (some "i") (some "") 2 0 [] (some .release_schema))).schema.name =
      some "" ∧
    ((ArrowArray.mk
        (FFI_ArrowArray.new (.mk .int32 1 1 (some [0]) 0 [[7, 0, 0, 0]] []))
        (.mk (some "i") (some "") 2 0 [] (some .release_schema))).schema.nullable =
      true ↔ (ArrayData.mk .int32 1 1 (some [0]) 0 [[7, 0, 0, 0]] []).nullCount ≠ 0) ∧
    (ArrowArray.mk
        (FFI_ArrowArray.new (.mk .int32 1 1 (some [0]) 0 [[7, 0, 0, 0]] []))
        (.mk (some "i") (some "") 2 0 [] (some .release_schema))).array =
      FFI_ArrowArray.new (.mk .int32 1 1 (some [0]) 0 [[7, 0, 0, 0]] []) :=
  claim9_export_field_identity (.mk .int32 1 1 (some [0]) 0 [[7, 0, 0, 0]] []) _ rfl

/-- C10: when the buffers vector pointer is null (as on `empty()` or a
released descriptor), `create_buffer` is absent for every index and length
without touching memory, hence `null_bit_buffer` is absent; the in-range
assertion can only fire when the vector is non-null; and `empty()` indeed
has a null buffers vector. -/
theorem claim10_create_buffer_total (array : FFI_ArrowArray) (index len : Nat) :
    (array.buffers = none →
      createBuffer array index len = .ok none ∧
      nullBitBuffer array = .ok none) ∧
    (∀ m, createBuffer array index len = .panic m → array.buffers ≠ none) ∧
    FFI_ArrowArray.empty.buffers = none := by
  refine ⟨?_, ?_, rfl⟩
  · intro h
    constructor
    · simp [createBuffer, h]
    · simp [nullBitBuffer, createBuffer, h]
  · intro m hp hn
    rw [createBuffer, hn] at hp
    exact absurd hp (by simp)

/-- C10 witness: on `empty()` every index yields an absent buffer. -/
theorem claim10_witness :
    createBuffer FFI_ArrowArray.empty 5 3 = .ok none ∧
    nullBitBuffer FFI_ArrowArray.empty = .ok none :=
  (claim10_create_buffer_total FFI_ArrowArray.empty 5 3).1 rfl

end ArrowFfi
